import Mathlib

/-!
Verification of the offline queue / sync / service-worker layer of the
Stefanos Garage web application, as a shallow embedding in Lean.

The embedded code is src/app/static/app.js (offline queue and sync engine),
src/app/static/sw.js (cache lifecycle of the v11 and v8 service-worker
variants) and src/unnamed/part_000 (update-banner logic).

Modelling conventions:
  - JavaScript exceptions are modelled with Except; a try/catch is an
    explicit match on the Except value.
  - The browser environment (fetch outcomes, generated ids, timestamps,
    the online flag, the percent-encoder of URLSearchParams) is passed in
    as explicit parameters.
  - localStorage holds one slot for the queue key; its raw content is
    modelled by the Slot type for the deserialization claims, and as an
    already-deserialized list of queue items for the queue-algebra claims
    (justified by the loadQueue theorems: a well-formed persisted blob
    loads back as the same array).
-/

namespace StefanosGarage

/-- The payload captured from the new-visit form (app.js lines 196-205).
Each field is `none` when absent on the object; JavaScript reads them with
a falsy-default `data.field || ""`. -/
structure VisitData where
  customer_name : Option String
  phone : Option String
  email : Option String
  plate_number : Option String
  model : Option String
  vin : Option String
  notes : Option String
deriving DecidableEq

/-- JavaScript falsy-default `v || ""` for an optional string field. -/
def orEmpty : Option String → String
  | none => ""
  | some s => s

/-- One queued pending submission (app.js lines 24-28): a generated id, an
ISO timestamp, and the captured form payload. -/
structure QItem where
  id : String
  created_at : String
  data : VisitData
deriving DecidableEq

/-- An all-empty payload, for concrete test inputs. -/
def emptyData : VisitData :=
  ⟨none, none, none, none, none, none, none⟩

/-! ## Raw storage model (loadQueue, app.js lines 8-16) -/

/-- A minimal JSON value, the result type of JSON.parse. -/
inductive Json where
  | null : Json
  | bool (b : Bool) : Json
  | num (n : Int) : Json
  | str (s : String) : Json
  | arr (xs : List Json) : Json
  | obj (fields : List (String × Json)) : Json

/-- Exceptions thrown by the modelled JavaScript operations. -/
inductive JsError where
  | parseError : JsError
  | storageWriteError : JsError
  | httpError : JsError
deriving DecidableEq

/-- The raw content of the localStorage slot under the queue key.
`absent` is a null getItem result; `invalid raw` is a stored string that
JSON.parse rejects; `valid raw j` is a stored string that JSON.parse
parses to the value `j`. -/
inductive Slot where
  | absent : Slot
  | invalid (raw : String) : Slot
  | valid (raw : String) (j : Json) : Slot

/-- JSON.parse(raw || "[]") on the slot content (app.js line 11): a null
or empty raw string is replaced by the literal "[]", which parses to the
empty array; otherwise the slot itself determines the parse outcome. -/
def jsonParseRaw : Slot → Except JsError Json
  | .absent => .ok (.arr [])
  | .invalid raw => if raw = "" then .ok (.arr []) else .error .parseError
  | .valid raw j => if raw = "" then .ok (.arr []) else .ok j

/-- Body of the try block of loadQueue (app.js lines 10-12): parse, then
return the parsed value when Array.isArray holds and the empty array
otherwise. -/
def loadQueueBody (slot : Slot) : Except JsError (List Json) := do
  let j ← jsonParseRaw slot
  match j with
  | .arr xs => pure xs
  | _ => pure []

/-- loadQueue (app.js lines 8-16): the try body with the catch handler
that turns any exception into the empty array. The Except result type
records what the caller can observe: an `.error` would be a thrown
exception escaping to the caller. -/
def loadQueue (slot : Slot) : Except JsError (List Json) :=
  match loadQueueBody slot with
  | .ok xs => .ok xs
  | .error _ => .ok []

/-! ## Queue operations over well-formed storage (app.js lines 18-41) -/

/-- saveQueue (app.js lines 18-20): localStorage.setItem of the serialized
array. The write can fail (quota, unavailable store) and saveQueue has no
try/catch, so the failure is thrown; `writeOk` says whether the
environment lets the write succeed. On success the persisted store is the
written array. -/
def saveQueueE (writeOk : Bool) (arr : List QItem) : Except JsError (List QItem) :=
  if writeOk then .ok arr else .error .storageWriteError

/-- enqueueVisit (app.js lines 22-31): load the queue, push one item with
the freshly generated id and current timestamp (both environment-supplied
here), persist, return the new length. There is no try/catch, so a
saveQueue failure propagates. Result: (returned length, new persisted
store). -/
def enqueueVisit (writeOk : Bool) (newId ts : String) (d : VisitData)
    (store : List QItem) : Except JsError (Nat × List QItem) := do
  let q := store ++ [⟨newId, ts, d⟩]
  let store2 ← saveQueueE writeOk q
  pure (q.length, store2)

/-- dequeueById (app.js lines 33-37): load, keep exactly the items whose
id differs from the given one, persist the result. Returns the new
persisted queue. -/
def dequeueById (i : String) (store : List QItem) : List QItem :=
  store.filter (fun x => x.id != i)

/-! ## Replay request construction (postNewVisit, app.js lines 137-160) -/

/-- The observable parts of the fetch request issued by postNewVisit. -/
structure ReplayReq where
  url : String
  method : String
  contentType : String
  body : String
  credentials : String
  redirect : String
deriving DecidableEq

/-- The field map set on the URLSearchParams, in program order (app.js
lines 140-148). The notes value is sent twice, under notes and under
notes_general. -/
def fieldPairs (d : VisitData) : List (String × String) :=
  [("customer_name", orEmpty d.customer_name),
   ("phone", orEmpty d.phone),
   ("email", orEmpty d.email),
   ("plate_number", orEmpty d.plate_number),
   ("model", orEmpty d.model),
   ("vin", orEmpty d.vin),
   ("notes", orEmpty d.notes),
   ("notes_general", orEmpty d.notes)]

/-- URLSearchParams.toString(): the pairs joined by ampersands, each key
and value passed through the percent-encoder `enc` of the host. -/
def formEncode (enc : String → String) (ps : List (String × String)) : String :=
  String.intercalate "&" (ps.map (fun p => enc p.1 ++ "=" ++ enc p.2))

/-- The fetch request built by postNewVisit (app.js lines 150-155). The
init object sets method, the Content-Type header (with an explicit
charset parameter), the encoded body and redirect follow; it does not set
a credentials mode, so the fetch default same-origin applies. -/
def postNewVisitReq (enc : String → String) (d : VisitData) : ReplayReq :=
  { url := "/visits/new"
    method := "POST"
    contentType := "application/x-www-form-urlencoded;charset=UTF-8"
    body := formEncode enc (fieldPairs d)
    credentials := "same-origin"
    redirect := "follow" }

/-- postNewVisit (app.js lines 137-160): issue the request; when the
final response is not ok, throw. `resOk` is the environment: whether the
fetch resolves with res.ok after following redirects. -/
def postNewVisit (enc : String → String) (resOk : Bool) (d : VisitData) :
    ReplayReq × Except JsError Bool :=
  (postNewVisitReq enc d, if resOk then .ok true else .error .httpError)

/-! ## Sync engine (syncQueue, app.js lines 162-179) -/

/-- A user-observable effect of a drain pass: either a replay request
issued for a payload (the postNewVisit fetch), or a user-visible
notification carrying a message. syncQueue and postNewVisit contain no
alert or other notification call, so the embedding of syncQueue below
only ever emits `replay` effects; the `notify` constructor exists so that
the absence of notifications is expressible. -/
inductive Eff where
  | replay (d : VisitData) : Eff
  | notify (msg : String) : Eff
deriving DecidableEq

/-- Outcome of one drain pass: the persisted store it leaves behind and
the ordered trace of effects it emitted. -/
structure PassResult where
  store : List QItem
  trace : List Eff
deriving DecidableEq

/-- The for-loop of syncQueue (app.js lines 169-178) over the snapshot
taken by loadQueue. For each snapshot item, postNewVisit is issued (one
replay effect); `res i` is the environment: whether the i-th replay of
the pass succeeds. On success the item is dequeued from the shared store
and the loop continues; the catch on failure breaks out of the loop. -/
def syncLoop (res : Nat → Bool) :
    List QItem → Nat → List QItem → List Eff → PassResult
  | [], _, store, tr => ⟨store, tr⟩
  | item :: rest, i, store, tr =>
    if res i then
      syncLoop res rest (i + 1) (dequeueById item.id store) (tr ++ [.replay item.data])
    else
      ⟨store, tr ++ [.replay item.data]⟩

/-- syncQueue (app.js lines 162-179): return immediately when offline;
load the queue and return when it is empty; otherwise run the sequential
replay loop over the snapshot. -/
def syncQueue (online : Bool) (res : Nat → Bool) (store : List QItem) : PassResult :=
  if !online then ⟨store, []⟩
  else if store.isEmpty then ⟨store, []⟩
  else syncLoop res store 0 store []

/-! ## Interleaving of two drain passes (C3)

syncQueue is an async function whose only suspension points are the
awaited fetches inside postNewVisit; everything between two awaits runs
atomically on the single JavaScript thread. Two invocations (for
instance the window online handler and the sync-now button handler) can
interleave at those suspension points. The step relation below has
exactly the atomic blocks of the source: starting a pass runs the online
and emptiness checks, snapshots the queue and issues the first replay;
resolving an in-flight replay either dequeues the item and issues the
next replay, or finishes the pass (the catch breaks the loop). -/

/-- Control state of one syncQueue invocation. `waiting item rest` means
the replay request for `item` has been issued and is awaited, with `rest`
the remainder of the snapshot taken at start. -/
inductive PassCtl where
  | notStarted : PassCtl
  | waiting (inflight : QItem) (rest : List QItem) : PassCtl
  | finished : PassCtl
deriving DecidableEq

/-- Shared state of two interleaved syncQueue invocations: the persisted
store, the control state of each invocation, and the log of replay requests
issued so far, as (invocation number, replayed item id) in issue order. -/
structure TwoPass where
  store : List QItem
  pass1 : PassCtl
  pass2 : PassCtl
  log : List (Nat × String)
deriving DecidableEq

/-- A scheduler command: run the synchronous head of invocation p (its call,
up to the first await), or resolve the in-flight fetch of invocation p with
the given success flag. -/
inductive Cmd where
  | start (p : Nat) : Cmd
  | respond (p : Nat) (ok : Bool) : Cmd
deriving DecidableEq

def getPass (p : Nat) (s : TwoPass) : PassCtl :=
  if p = 1 then s.pass1 else s.pass2

def setPass (p : Nat) (c : PassCtl) (s : TwoPass) : TwoPass :=
  if p = 1 then { s with pass1 := c } else { s with pass2 := c }

/-- One scheduler step. The device is online throughout. A command that
does not apply in the current state (starting an already-started pass,
resolving a pass with nothing in flight) is a no-op. -/
def stepTP (s : TwoPass) : Cmd → TwoPass
  | .start p =>
    match getPass p s with
    | .notStarted =>
      match s.store with
      | [] => setPass p .finished s
      | item :: rest =>
        { setPass p (.waiting item rest) s with log := s.log ++ [(p, item.id)] }
    | _ => s
  | .respond p ok =>
    match getPass p s with
    | .waiting item rest =>
      if ok then
        let s2 := { s with store := dequeueById item.id s.store }
        match rest with
        | [] => setPass p .finished s2
        | it2 :: rs =>
          { setPass p (.waiting it2 rs) s2 with log := s2.log ++ [(p, it2.id)] }
      else setPass p .finished s
    | _ => s

/-- Run a schedule of commands from an initial state. -/
def runTP (s : TwoPass) (cs : List Cmd) : TwoPass :=
  cs.foldl stepTP s

/-- Initial state: the given persisted queue, neither invocation started,
no requests issued. -/
def initTP (store : List QItem) : TwoPass :=
  ⟨store, .notStarted, .notStarted, []⟩

/-! ## Service-worker cache activation (sw.js) -/

/-- The designated cache name of the v11 service worker (sw.js line 4). -/
def v11CacheName : String := "stefanos-garage-offline-shell-v11"

/-- The versioned cache name of the v8 service-worker variant (sw.js
lines 214-215). -/
def v8SwCache : String := "sg-sw-offline-v8"

/-- The shared pages cache name of the v8 service-worker variant (sw.js
line 216). -/
def v8PagesCache : String := "sg-pages-v1"

/-- The v11 activate handler (sw.js lines 30-36): enumerate the cache
names and delete every one that differs from CACHE_NAME. The result is
the list of cache generations still readable afterwards. -/
def v11Activate (keys : List String) : List String :=
  keys.filter (fun k => k == v11CacheName)

/-- The v8 variant activate handler (sw.js lines 360-366): delete every
cache whose name differs from both SW_CACHE and PAGES_CACHE, so both of
those survive. The result is the list of cache generations still
readable afterwards. -/
def v8Activate (keys : List String) : List String :=
  keys.filter (fun k => k == v8SwCache || k == v8PagesCache)

/-! ## Update banner (src/unnamed/part_000) -/

/-- The events at which registerSW decides whether to show the update
banner, each carrying the value of navigator.serviceWorker.controller
(whether an active version currently controls the page) at that moment:
`registered hasWaiting ctl` is the check right after register resolves
(reg.waiting present or not); `stateChange st ctl` is a statechange of an
installing worker to the state named st. -/
inductive SwEvent where
  | registered (hasWaiting : Bool) (ctl : Bool) : SwEvent
  | stateChange (st : String) (ctl : Bool) : SwEvent
deriving DecidableEq

/-- Whether the event triggers a showUpdateBanner call: reg.waiting with
a controller present (part_000 lines 7-9), or a worker reaching the
installed state with a controller present (part_000 lines 16-18). -/
def bannerTrigger : SwEvent → Bool
  | .registered w c => w && c
  | .stateChange st c => st == "installed" && c

/-- The controller flag carried by the event. -/
def ctlOf : SwEvent → Bool
  | .registered _ c => c
  | .stateChange _ c => c

/-- showUpdateBanner (part_000 lines 26-50): return if the banner element
already exists, otherwise create and show it. State is whether the
banner is shown. -/
def showUpdateBanner (shown : Bool) : Bool :=
  if shown then shown else true

/-- Run the update-banner logic over a sequence of lifecycle events. -/
def runUpdateEvents (evs : List SwEvent) (shown : Bool) : Bool :=
  evs.foldl (fun s e => if bannerTrigger e then showUpdateBanner s else s) shown

/-! ## Concrete items used by witnesses and counterexamples -/

/-- A concrete queued item with id "a". -/
def qA : QItem := ⟨"a", "t1", emptyData⟩

/-- A concrete queued item with id "b". -/
def qB : QItem := ⟨"b", "t2", emptyData⟩

/-- Whether an effect is a replay request (as opposed to a user-visible
notification). -/
def isReplay : Eff → Bool
  | .replay _ => true
  | .notify _ => false

/-! ## Helper lemmas about the drain loop -/

/-- The cumulative effect on the shared store of dequeueing each item of
`q` in order. -/
def foldDequeue (q store : List QItem) : List QItem :=
  q.foldl (fun s it => dequeueById it.id s) store

lemma syncLoop_all_ok (res : Nat → Bool) (h : ∀ i, res i = true) :
    ∀ (q : List QItem) (i : Nat) (store : List QItem) (tr : List Eff),
      syncLoop res q i store tr =
        ⟨foldDequeue q store, tr ++ q.map (fun it => Eff.replay it.data)⟩ := by
  intro q
  induction q with
  | nil => intro i store tr; simp [syncLoop, foldDequeue]
  | cons a q ih =>
    intro i store tr
    simp only [syncLoop, h i, if_pos]
    rw [ih]
    simp [foldDequeue, List.foldl_cons]

lemma foldDequeue_eq_filter :
    ∀ (q store : List QItem),
      foldDequeue q store =
        store.filter (fun x => !((q.map QItem.id).contains x.id)) := by
  intro q
  induction q with
  | nil =>
    intro store
    simp [foldDequeue, List.filter_eq_self]
  | cons a q ih =>
    intro store
    have h1 : foldDequeue (a :: q) store = foldDequeue q (dequeueById a.id store) := rfl
    rw [h1, ih, dequeueById, List.filter_filter]
    apply List.filter_congr
    intro x _
    simp only [List.map_cons, List.contains_cons]
    cases hxa : x.id == a.id <;> cases hq : (q.map QItem.id).contains x.id <;> simp_all

lemma foldDequeue_self_eq_nil (store : List QItem) :
    foldDequeue store store = [] := by
  rw [foldDequeue_eq_filter]
  rw [List.filter_eq_nil_iff]
  intro x hx
  have hmem : x.id ∈ store.map QItem.id := List.mem_map_of_mem QItem.id hx
  simp [hmem]

lemma syncQueue_all_ok (res : Nat → Bool) (store : List QItem)
    (h : ∀ i, res i = true) :
    syncQueue true res store =
      ⟨[], store.map (fun it => Eff.replay it.data)⟩ := by
  by_cases hs : store = []
  · subst hs; simp [syncQueue]
  · have hne : store.isEmpty = false := by
      simp [List.isEmpty_iff, hs]
    simp only [syncQueue, Bool.not_true, Bool.false_eq_true, if_false, hne, if_neg,
      Bool.false_eq_true]
    rw [syncLoop_all_ok res h store 0 store []]
    rw [foldDequeue_self_eq_nil]
    simp

lemma syncLoop_fail (res : Nat → Bool) :
    ∀ (q : List QItem) (k i : Nat) (store : List QItem) (tr : List Eff),
      k < q.length → (∀ j, j < k → res (i + j) = true) → res (i + k) = false →
      syncLoop res q i store tr =
        ⟨foldDequeue (q.take k) store,
         tr ++ (q.take (k + 1)).map (fun it => Eff.replay it.data)⟩ := by
  intro q
  induction q with
  | nil => intro k i store tr hk; exact absurd hk (Nat.not_lt_zero k)
  | cons a q ih =>
    intro k i store tr hk hsucc hfail
    cases k with
    | zero =>
      have hi : res i = false := by simpa using hfail
      simp [syncLoop, hi, foldDequeue]
    | succ k =>
      have hi : res i = true := by
        have := hsucc 0 (Nat.succ_pos k)
        simpa using this
      simp only [syncLoop, hi, if_pos]
      have hsucc2 : ∀ j, j < k → res (i + 1 + j) = true := by
        intro j hj
        have h2 := hsucc (j + 1) (Nat.succ_lt_succ hj)
        have : i + 1 + j = i + (j + 1) := by omega
        rw [this]; exact h2
      have hfail2 : res (i + 1 + k) = false := by
        have : i + 1 + k = i + (k + 1) := by omega
        rw [this]; exact hfail
      have hk2 : k < q.length := by simpa using Nat.lt_of_succ_lt_succ hk
      rw [ih k (i + 1) (dequeueById a.id store) (tr ++ [Eff.replay a.data]) hk2 hsucc2 hfail2]
      have h3 : foldDequeue ((a :: q).take (k + 1)) store
          = foldDequeue (q.take k) (dequeueById a.id store) := rfl
      rw [h3]
      simp

lemma foldDequeue_take_eq_drop (store : List QItem) (k : Nat)
    (hnodup : (store.map QItem.id).Nodup) :
    foldDequeue (store.take k) store = store.drop k := by
  rw [foldDequeue_eq_filter]
  have hsplit : store.filter
      (fun x => !(((store.take k).map QItem.id).contains x.id))
      = (store.take k ++ store.drop k).filter
        (fun x => !(((store.take k).map QItem.id).contains x.id)) := by
    rw [List.take_append_drop]
  rw [hsplit, List.filter_append]
  have h1 : (store.take k).filter
      (fun x => !(((store.take k).map QItem.id).contains x.id)) = [] := by
    rw [List.filter_eq_nil_iff]
    intro x hx
    have hmem : x.id ∈ (store.take k).map QItem.id := List.mem_map_of_mem QItem.id hx
    rw [List.map_take] at hmem
    simp [hmem]
  have hdisj : ((store.take k).map QItem.id).Disjoint ((store.drop k).map QItem.id) := by
    have : ((store.take k).map QItem.id ++ (store.drop k).map QItem.id).Nodup := by
      rw [← List.map_append, List.take_append_drop]
      exact hnodup
    exact (List.nodup_append.mp this).2.2
  have h2 : (store.drop k).filter
      (fun x => !(((store.take k).map QItem.id).contains x.id)) = store.drop k := by
    rw [List.filter_eq_self]
    intro x hx
    have hmem : x.id ∈ (store.drop k).map QItem.id := List.mem_map_of_mem QItem.id hx
    have hnot : x.id ∉ (store.take k).map QItem.id := fun hin => hdisj hin hmem
    rw [List.map_take] at hnot
    simp [hnot]
  rw [h1, h2, List.nil_append]

/-! ## Claim theorems -/

/-- Claim C1: for every persisted queue of N items, a drain pass run
while the device reports online in which every replay succeeds leaves the
persisted queue empty and issues exactly N replay requests, one per
queued item, in FIFO (enqueue) order. -/
theorem claim1_full_drain (res : Nat → Bool) (store : List QItem)
    (h : ∀ i, res i = true) :
    (syncQueue true res store).store = [] ∧
    (syncQueue true res store).trace =
      store.map (fun it => Eff.replay it.data) := by
  rw [syncQueue_all_ok res store h]
  exact ⟨rfl, rfl⟩

/-- Witness for C1 at a concrete two-item queue with all replays
succeeding: the queue drains to empty and both items are replayed in
order. -/
theorem claim1_full_drain_witness :
    (syncQueue true (fun _ => true) [qA, qB]).store = [] ∧
    (syncQueue true (fun _ => true) [qA, qB]).trace =
      [Eff.replay emptyData, Eff.replay emptyData] :=
  claim1_full_drain (fun _ => true) [qA, qB] (fun _ => rfl)

/-- Claim C2: if during a drain pass the replays of the first k items
succeed and the replay at (0-based) position k fails, then after the pass
the persisted queue contains exactly the items from position k on, in
original order, the first k items have been removed, and replay requests
were issued exactly for the first k+1 items (none after the failed one).
The queued ids are pairwise distinct, as guaranteed at enqueue time. -/
theorem claim2_drain_stops_at_failure (res : Nat → Bool) (store : List QItem) (k : Nat)
    (hnodup : (store.map QItem.id).Nodup) (hk : k < store.length)
    (hsucc : ∀ j, j < k → res j = true) (hfail : res k = false) :
    (syncQueue true res store).store = store.drop k ∧
    (syncQueue true res store).trace =
      (store.take (k + 1)).map (fun it => Eff.replay it.data) := by
  have hne : store.isEmpty = false := by
    rcases store with _ | ⟨a, l⟩
    · exact absurd hk (Nat.not_lt_zero k)
    · rfl
  have hsucc0 : ∀ j, j < k → res (0 + j) = true := by
    intro j hj; simpa using hsucc j hj
  have hfail0 : res (0 + k) = false := by simpa using hfail
  have hloop := syncLoop_fail res store k 0 store [] hk hsucc0 hfail0
  simp only [syncQueue, Bool.not_true, Bool.false_eq_true, if_false, hne, if_neg]
  rw [hloop, foldDequeue_take_eq_drop store k hnodup]
  exact ⟨rfl, by simp⟩

/-- Witness for C2 at the concrete queue [A, B] where the replay of A
succeeds and the replay of B fails: only B remains, and both requests
were issued. -/
theorem claim2_drain_stops_at_failure_witness :
    (syncQueue true (fun i => decide (i = 0)) [qA, qB]).store = [qB] ∧
    (syncQueue true (fun i => decide (i = 0)) [qA, qB]).trace =
      [Eff.replay emptyData, Eff.replay emptyData] :=
  claim2_drain_stops_at_failure (fun i => decide (i = 0)) [qA, qB] 1 (by decide) (by decide)
    (by decide) (by decide)

/-- Claim C3, counterexample: with persisted queue [A], the schedule that
starts invocation 1 and then starts invocation 2 while invocation 1 is
still awaiting its fetch makes both invocations issue a replay request
for the same queued item A, with neither invocation finished — so the
later invocation is neither a no-op nor serialized after the earlier one,
and item A is replayed by two concurrent passes. -/
theorem claim3_overlap_cex :
    (runTP (initTP [qA]) [.start 1, .start 2]).log = [(1, "a"), (2, "a")] ∧
    (runTP (initTP [qA]) [.start 1, .start 2]).pass1 ≠ .finished ∧
    (runTP (initTP [qA]) [.start 1, .start 2]).pass2 ≠ .finished := by
  refine ⟨rfl, ?_, ?_⟩ <;> decide

/-- Claim C3 as amended: syncQueue has no re-entrancy guard, so
overlapping invocations are neither no-ops nor serialized and two
concurrent passes can replay the same queued item; invocations that do
not overlap are safe, in that an invocation started after a fully
successful pass finds the queue empty and issues no replay requests at
all. -/
theorem claim3_sequential_invocations (res1 res2 : Nat → Bool)
    (store : List QItem) (h : ∀ i, res1 i = true) :
    (syncQueue true res2 (syncQueue true res1 store).store).trace = [] := by
  rw [syncQueue_all_ok res1 store h]
  rfl

/-- Witness for the amended C3 at a concrete queue: after a fully
successful pass over [A, B], a second invocation issues nothing. -/
theorem claim3_sequential_invocations_witness :
    (syncQueue true (fun _ => false)
      (syncQueue true (fun _ => true) [qA, qB]).store).trace = [] :=
  claim3_sequential_invocations (fun _ => true) (fun _ => false) [qA, qB] (fun _ => rfl)

/-- Claim C4, counterexample: when the persistent-storage write fails,
enqueueVisit does throw to its caller (saveQueue and enqueueVisit have no
try/catch), so storage write errors are not swallowed. -/
theorem claim4_enqueue_throws_cex :
    enqueueVisit false "id1" "t1" emptyData [] = .error .storageWriteError := rfl

/-- Claim C4 as amended: for every payload, enqueueVisit appends one
QueueItem with the freshly generated id and current timestamp, persists
the queue, and returns the new queue length; when the persistent-storage
write succeeds it does not throw, but a storage write failure is not
swallowed — the exception propagates to the caller. -/
theorem claim4_enqueue (newId ts : String) (d : VisitData) (store : List QItem) :
    enqueueVisit true newId ts d store =
      .ok (store.length + 1, store ++ [⟨newId, ts, d⟩]) ∧
    enqueueVisit false newId ts d store = .error .storageWriteError := by
  constructor
  · simp [enqueueVisit, saveQueueE]
  · rfl

/-- Claim C6, counterexample: at the concrete one-item queue [A], a drain
pass that stops at a failed replay emits only the replay request and no
user-visible notification, and a drain pass that replays everything
successfully likewise emits no notification — syncQueue contains no
notification call at all. -/
theorem claim6_no_notification_cex :
    (syncQueue true (fun _ => false) [qA]).trace = [Eff.replay emptyData] ∧
    ((syncQueue true (fun _ => false) [qA]).trace.filter
      (fun e => !isReplay e)) = [] ∧
    (syncQueue true (fun _ => true) [qA]).trace = [Eff.replay emptyData] ∧
    ((syncQueue true (fun _ => true) [qA]).trace.filter
      (fun e => !isReplay e)) = [] := by
  refine ⟨rfl, rfl, rfl, rfl⟩

/-- Claim C6 as amended: no drain pass surfaces any user-visible
notification, neither on failure nor on success — every effect a drain
pass emits is a replay request; the surrounding event handlers only
refresh the pending-count banner afterwards. -/
theorem claim6_trace_only_replays (online : Bool) (res : Nat → Bool)
    (store : List QItem) :
    ((syncQueue online res store).trace).all isReplay = true := by
  have hloop : ∀ (q : List QItem) (i : Nat) (st : List QItem) (tr : List Eff),
      tr.all isReplay = true → ((syncLoop res q i st tr).trace).all isReplay = true := by
    intro q
    induction q with
    | nil => intro i st tr htr; simpa [syncLoop] using htr
    | cons a q ih =>
      intro i st tr htr
      by_cases hres : res i = true
      · simp only [syncLoop, hres, if_pos]
        apply ih
        simp [htr, isReplay]
      · have hres2 : res i = false := by
          cases h2 : res i
          · rfl
          · exact absurd h2 hres
        simp only [syncLoop, hres2, Bool.false_eq_true, if_false, if_neg]
        simp [htr, isReplay]
  rcases online with _ | _
  · rfl
  · by_cases hs : store.isEmpty = true
    · simp [syncQueue, hs]
    · have hs2 : store.isEmpty = false := by
        cases h2 : store.isEmpty
        · rfl
        · exact absurd h2 hs
      simp only [syncQueue, Bool.not_true, Bool.false_eq_true, if_false, hs2, if_neg]
      exact hloop store 0 store [] rfl

lemma loadQueue_eval (slot : Slot) :
    loadQueue slot = .ok (match jsonParseRaw slot with
      | .ok (.arr xs) => xs
      | _ => []) := by
  unfold loadQueue loadQueueBody
  cases h : jsonParseRaw slot with
  | ok j => cases j <;> rfl
  | error e => rfl

/-- Claim C5: for every possible content of the persisted queue storage
slot (absent, non-JSON text, or JSON that is not an array), loadQueue
returns an array and never throws; a corrupt or missing blob is treated
as the empty queue. -/
theorem claim5_loadQueue_total :
    (∀ slot : Slot, ∃ xs : List Json, loadQueue slot = .ok xs) ∧
    loadQueue .absent = .ok [] ∧
    (∀ raw : String, loadQueue (.invalid raw) = .ok []) ∧
    (∀ (raw : String) (j : Json), (∀ xs, j ≠ .arr xs) →
      loadQueue (.valid raw j) = .ok []) := by
  refine ⟨?_, rfl, ?_, ?_⟩
  · intro slot
    rw [loadQueue_eval]
    exact ⟨_, rfl⟩
  · intro raw
    rw [loadQueue_eval]
    by_cases h : raw = "" <;> simp [jsonParseRaw, h]
  · intro raw j hj
    rw [loadQueue_eval]
    by_cases h : raw = ""
    · simp [jsonParseRaw, h]
    · rcases j with _ | b | n | s | xs | fs
      · simp [jsonParseRaw, h]
      · simp [jsonParseRaw, h]
      · simp [jsonParseRaw, h]
      · simp [jsonParseRaw, h]
      · exact absurd rfl (hj xs)
      · simp [jsonParseRaw, h]

/-- Witness for C5 at concrete slots: a stored non-JSON string and a
stored JSON object both load as the empty queue without throwing. -/
theorem claim5_loadQueue_total_witness :
    loadQueue (.invalid "not json") = .ok [] ∧
    loadQueue (.valid "raw" (.obj [])) = .ok [] :=
  ⟨claim5_loadQueue_total.2.2.1 "not json",
   claim5_loadQueue_total.2.2.2 "raw" (.obj []) (fun _ h => Json.noConfusion h)⟩

/-- Claim C7, counterexample: the activate handler of the v8
service-worker variant keeps both its versioned cache and the shared
pages cache, so with pre-existing generations [sg-sw-offline-v8,
sg-pages-v1, stefanos-garage-offline-shell-v11] two generations remain
readable after activation — not exactly one — and the surviving
sg-pages-v1 does not match the versioned designated cache name. -/
theorem claim7_activate_cex :
    (v8Activate ["sg-sw-offline-v8", "sg-pages-v1",
      "stefanos-garage-offline-shell-v11"]).length = 2 ∧
    v8PagesCache ∈ v8Activate ["sg-sw-offline-v8", "sg-pages-v1",
      "stefanos-garage-offline-shell-v11"] ∧
    v8PagesCache ≠ v8SwCache := by
  refine ⟨rfl, ?_, ?_⟩ <;> decide

/-- Claim C7 as amended: the v11 activate handler deletes every cache
generation whose name differs from its designated cache name, leaving
exactly that one generation readable; the v8 variant handler instead
keeps exactly its two designated caches (the versioned cache and the
shared pages cache) and deletes every other generation — in both
variants nothing outside the kept names survives, so no request after
activation resolves to a deleted generation. -/
theorem claim7_activate (keys : List String)
    (hnodup : keys.Nodup) (hmem : v11CacheName ∈ keys) :
    v11Activate keys = [v11CacheName] ∧
    (∀ k : String, k ∈ v11Activate keys → k = v11CacheName) ∧
    (∀ k : String, k ∈ v8Activate keys ↔
      k ∈ keys ∧ (k = v8SwCache ∨ k = v8PagesCache)) := by
  refine ⟨?_, ?_, ?_⟩
  · rw [v11Activate, List.filter_beq keys v11CacheName,
      List.count_eq_one_of_mem hnodup hmem]
    rfl
  · intro k hk
    have := List.mem_filter.mp hk
    simpa using this.2
  · intro k
    constructor
    · intro hk
      have := List.mem_filter.mp hk
      refine ⟨this.1, ?_⟩
      simpa using this.2
    · intro ⟨hk, hor⟩
      apply List.mem_filter.mpr
      refine ⟨hk, ?_⟩
      simpa using hor

/-- Witness for the amended C7 at a concrete pre-existing set of cache
generations. -/
theorem claim7_activate_witness :
    v11Activate ["stefanos-garage-offline-shell-v11", "old-cache"] =
      ["stefanos-garage-offline-shell-v11"] ∧
    ("sg-pages-v1" ∈ v8Activate ["stefanos-garage-offline-shell-v11", "old-cache"] ↔
      "sg-pages-v1" ∈ ["stefanos-garage-offline-shell-v11", "old-cache"] ∧
      ("sg-pages-v1" = v8SwCache ∨ "sg-pages-v1" = v8PagesCache)) :=
  ⟨(claim7_activate ["stefanos-garage-offline-shell-v11", "old-cache"]
      (by decide) (by decide)).1,
   (claim7_activate ["stefanos-garage-offline-shell-v11", "old-cache"]
      (by decide) (by decide)).2.2 "sg-pages-v1"⟩

/-- Claim C8: during a first-ever install no active version controls the
page, so no banner-triggering check ever fires and the update prompt is
never shown; when a second, differing version reaches the installed
state while an active version controls the page, the update prompt is
shown. -/
theorem claim8_update_prompt :
    (∀ evs : List SwEvent, (∀ e ∈ evs, ctlOf e = false) →
      runUpdateEvents evs false = false) ∧
    (∀ shown : Bool, runUpdateEvents [.stateChange "installed" true] shown = true) := by
  constructor
  · intro evs
    induction evs with
    | nil => intro _; rfl
    | cons e evs ih =>
      intro h
      have hctl : ctlOf e = false := h e (List.mem_cons_self e evs)
      have htrig : bannerTrigger e = false := by
        rcases e with ⟨w, c⟩ | ⟨st, c⟩ <;> simp_all [bannerTrigger, ctlOf]
      have h2 : ∀ e2 ∈ evs, ctlOf e2 = false := fun e2 he2 => h e2 (List.mem_cons_of_mem e he2)
      simpa [runUpdateEvents, htrig] using ih h2
  · intro shown
    rcases shown with _ | _ <;> rfl

/-- Witness for C8: a concrete first-install event sequence (registration
with no waiting worker and no controller, then the new worker reaching
installed with still no controller) shows no prompt, while the upgrade
event (installed with a controller present) shows it. -/
theorem claim8_update_prompt_witness :
    runUpdateEvents [.registered false false, .stateChange "installed" false] false
      = false ∧
    runUpdateEvents [.stateChange "installed" true] false = true :=
  ⟨claim8_update_prompt.1 [.registered false false, .stateChange "installed" false]
      (by decide),
   claim8_update_prompt.2 false⟩

/-- Claim C9, counterexample: the Content-Type header sent by
postNewVisit is the urlencoded media type with an explicit charset
parameter, so its value is not the bare string
application/x-www-form-urlencoded. -/
theorem claim9_content_type_cex :
    (postNewVisit (fun s => s) true emptyData).1.contentType ≠
      "application/x-www-form-urlencoded" := by
  decide

/-- Claim C9 as amended: for every QueueItem payload, its replay is issued
as a POST to /visits/new with Content-Type header
application/x-www-form-urlencoded;charset=UTF-8 (the urlencoded media
type with an explicit UTF-8 charset parameter), with body equal to the
URL-encoded field map reconstructed from the payload (with the notes
value sent under both notes and notes_general), with same-origin
credentials, and with redirects followed to completion. -/
theorem claim9_replay_request (enc : String → String) (resOk : Bool) (d : VisitData) :
    (postNewVisit enc resOk d).1.url = "/visits/new" ∧
    (postNewVisit enc resOk d).1.method = "POST" ∧
    (postNewVisit enc resOk d).1.contentType =
      "application/x-www-form-urlencoded;charset=UTF-8" ∧
    (postNewVisit enc resOk d).1.body = formEncode enc (fieldPairs d) ∧
    (postNewVisit enc resOk d).1.credentials = "same-origin" ∧
    (postNewVisit enc resOk d).1.redirect = "follow" ∧
    fieldPairs d =
      [("customer_name", orEmpty d.customer_name),
       ("phone", orEmpty d.phone),
       ("email", orEmpty d.email),
       ("plate_number", orEmpty d.plate_number),
       ("model", orEmpty d.model),
       ("vin", orEmpty d.vin),
       ("notes", orEmpty d.notes),
       ("notes_general", orEmpty d.notes)] :=
  ⟨rfl, rfl, rfl, rfl, rfl, rfl, rfl⟩

/-- Claim C10: dequeueById removes exactly the items whose id equals the
given id and keeps all remaining items in their relative order (the
result is a sublist of the original queue); when no item has that id, the
persisted queue is unchanged. -/
theorem claim10_dequeueById (i : String) (store : List QItem) :
    (dequeueById i store).Sublist store ∧
    (∀ x ∈ dequeueById i store, x.id ≠ i) ∧
    (∀ x ∈ store, x.id ≠ i → x ∈ dequeueById i store) ∧
    (i ∉ store.map QItem.id → dequeueById i store = store) := by
  refine ⟨List.filter_sublist store, ?_, ?_, ?_⟩
  · intro x hx
    have := (List.mem_filter.mp hx).2
    simpa using this
  · intro x hx hne
    apply List.mem_filter.mpr
    exact ⟨hx, by simpa using hne⟩
  · intro hno
    rw [dequeueById, List.filter_eq_self]
    intro x hx
    have : x.id ≠ i := by
      intro heq
      exact hno (heq ▸ List.mem_map_of_mem QItem.id hx)
    simpa using this

/-- Witness for C10 at a concrete queue: removing id "a" from [A, B]
keeps exactly B, and removing an id that is not present leaves the queue
equal to the original. -/
theorem claim10_dequeueById_witness :
    QItem.id qB ≠ "a" ∧
    dequeueById "c" [qA, qB] = [qA, qB] :=
  ⟨(claim10_dequeueById "a" [qA, qB]).2.1 qB (by decide),
   (claim10_dequeueById "c" [qA, qB]).2.2.2 (by decide)⟩

end StefanosGarage
